import Mathlib

/-!
Verification development for the scikit-extremes estimation engine.

The numeric core of the library is shallowly embedded over `ℚ`:
pure arithmetic done by the code is translated literally, while external
numeric collaborators (scipy optimizers, `numdifftools` Hessians,
`np.linalg.inv`, `np.sqrt`, `np.log`, `scipy.stats.norm.ppf`, random
resampling) are modelled as explicit function parameters, so every theorem
states exactly what the repository's own code does with their outputs.
-/

/-! ## `np.round` — round half to even (banker's rounding), as used by
`bootstrap_ci` in `skextremes/utils.py` to compute percentile indices. -/

/-- Model of `np.round` on a scalar: round half to even. -/
def roundHalfEven (x : ℚ) : ℤ :=
  if x - ⌊x⌋ < 1 / 2 then ⌊x⌋
  else if 1 / 2 < x - ⌊x⌋ then ⌊x⌋ + 1
  else if ⌊x⌋ % 2 = 0 then ⌊x⌋ else ⌊x⌋ + 1

theorem roundHalfEven_ge_floor (x : ℚ) : ⌊x⌋ ≤ roundHalfEven x := by
  unfold roundHalfEven
  split_ifs <;> omega

theorem roundHalfEven_le_floor_add_one (x : ℚ) : roundHalfEven x ≤ ⌊x⌋ + 1 := by
  unfold roundHalfEven
  split_ifs <;> omega

theorem roundHalfEven_nonneg {x : ℚ} (hx : 0 ≤ x) : 0 ≤ roundHalfEven x := by
  have h : (0 : ℤ) ≤ ⌊x⌋ := Int.floor_nonneg.mpr hx
  exact le_trans h (roundHalfEven_ge_floor x)

theorem roundHalfEven_mono {x y : ℚ} (hxy : x ≤ y) :
    roundHalfEven x ≤ roundHalfEven y := by
  rcases lt_or_eq_of_le (Int.floor_le_floor hxy) with hf | hf
  · calc roundHalfEven x ≤ ⌊x⌋ + 1 := roundHalfEven_le_floor_add_one x
    _ ≤ ⌊y⌋ := by omega
    _ ≤ roundHalfEven y := roundHalfEven_ge_floor y
  · have hr : x - ⌊x⌋ ≤ y - ⌊y⌋ := by
      rw [← hf]; exact sub_le_sub_right hxy _
    unfold roundHalfEven
    rw [← hf]
    split_ifs with h1 h2 h3 h4 h5 h6 h7 h8 h9 h10 <;>
      first
        | omega
        | (exfalso; linarith)

/-! ## Percentile-interval bootstrap stage of `bootstrap_ci`
(`skextremes/utils.py`).

The function draws `n_samples` resamples, applies the statistic to each
(possibly vector valued), sorts the resulting ensemble along the replicate
axis (numpy sorts each output dimension independently), and indexes the
sorted ensemble at `round((n_samples - 1) * alpha / 2)` and
`round((n_samples - 1) * (1 - alpha / 2))`.  The resampling itself is
random (external); the embedding takes the ensemble — one row per
replicate — as input. -/

/-- Lower percentile index `nvals[0] = round((n-1) * alpha/2)`. -/
def nvalLo (n : ℕ) (alpha : ℚ) : ℤ :=
  roundHalfEven (((n : ℚ) - 1) * (alpha / 2))

/-- Upper percentile index `nvals[1] = round((n-1) * (1 - alpha/2))`. -/
def nvalHi (n : ℕ) (alpha : ℚ) : ℤ :=
  roundHalfEven (((n : ℚ) - 1) * (1 - alpha / 2))

/-- Warnings emitted by `bootstrap_ci`. -/
inductive Warn where
  | strong : Warn
  | mild : Warn
deriving DecidableEq, Repr

/-- The warning block of `bootstrap_ci`: a strong instability warning if any
percentile index is `0` or `n - 1`; otherwise (`elif`) a milder one if any
index is `< 10` or `>= n - 10`. -/
def bootstrapWarns (n : ℕ) (alpha : ℚ) : List Warn :=
  if nvalLo n alpha = 0 ∨ nvalHi n alpha = 0 ∨
     nvalLo n alpha = (n : ℤ) - 1 ∨ nvalHi n alpha = (n : ℤ) - 1 then
    [Warn.strong]
  else if nvalLo n alpha < 10 ∨ nvalHi n alpha < 10 ∨
          (n : ℤ) - 10 ≤ nvalLo n alpha ∨ (n : ℤ) - 10 ≤ nvalHi n alpha then
    [Warn.mild]
  else []

/-- Column `j` of the replicate ensemble (`axis 0` delineates replicates). -/
def ensembleCol (rows : List (List ℚ)) (j : ℕ) : List ℚ :=
  rows.map (fun r => r.getD j 0)

/-- `stat.sort(axis=0)` followed by `stat[i]`: the row assembled from the
`i`-th smallest value of every output dimension. -/
def percentileRow (rows : List (List ℚ)) (i : ℕ) : List ℚ :=
  (List.range (rows.headD []).length).map
    (fun j => (List.insertionSort (· ≤ ·) (ensembleCol rows j)).getD i 0)

/-- Result of `bootstrap_ci`: emitted warnings plus the two percentile rows
returned as `stat[nvals]`. -/
structure BootstrapOut where
  warns : List Warn
  lower : List ℚ
  upper : List ℚ
deriving Repr

/-- Percentile-interval stage of `bootstrap_ci` (`skextremes/utils.py`):
the ensemble `rows` holds one statistic evaluation per replicate; numpy's
`sort(axis=0)` is modelled per output dimension, and the rows at the two
rounded percentile indices are returned together with the warnings. -/
def bootstrap_ci (rows : List (List ℚ)) (alpha : ℚ) : BootstrapOut :=
  { warns := bootstrapWarns rows.length alpha
    lower := percentileRow rows (nvalLo rows.length alpha).toNat
    upper := percentileRow rows (nvalHi rows.length alpha).toNat }

/-! ## Lieblein BLUE coefficient tables and the hypergeometric extension
(`skextremes/models/engineering.py`, `Lieblein._ppp_lieblein`). -/

/-- Tabulated `ai` coefficients, keyed by sample size (`ai['n = NN']`). -/
def aiTable (n : ℕ) : Option (List ℚ) :=
  match n with
  | 2 => some [0.916373, 0.083627]
  | 3 => some [0.656320, 0.255714, 0.087966]
  | 4 => some [0.510998, 0.263943, 0.153680, 0.071380]
  | 5 => some [0.418934, 0.246282, 0.167609, 0.108824, 0.058350]
  | 6 => some [0.355450, 0.225488, 0.165620, 0.121054, 0.083522, 0.048867]
  | 7 => some [0.309008, 0.206260, 0.158590, 0.123223, 0.093747, 0.067331,
               0.041841]
  | 8 => some [0.273535, 0.189428, 0.150200, 0.121174, 0.097142, 0.075904,
               0.056132, 0.036485]
  | 9 => some [0.245539, 0.174882, 0.141789, 0.117357, 0.097218, 0.079569,
               0.063400, 0.047957, 0.032291]
  | 10 => some [0.222867, 0.162308, 0.133845, 0.112868, 0.095636, 0.080618,
                0.066988, 0.054193, 0.041748, 0.028929]
  | 11 => some [0.204123, 0.151384, 0.126522, 0.108226, 0.093234, 0.080222,
                0.068485, 0.057578, 0.047159, 0.036886, 0.026180]
  | 12 => some [0.188361, 0.141833, 0.119838, 0.103673, 0.090455, 0.079018,
                0.068747, 0.059266, 0.050303, 0.041628, 0.032984, 0.023894]
  | 13 => some [0.174916, 0.133422, 0.113759, 0.099323, 0.087540, 0.077368,
                0.068264, 0.059900, 0.052047, 0.044528, 0.037177, 0.029790,
                0.021965]
  | 14 => some [0.163309, 0.125966, 0.108230, 0.095223, 0.084619, 0.075484,
                0.067331, 0.059866, 0.052891, 0.046260, 0.039847, 0.033526,
                0.027131, 0.020317]
  | 15 => some [0.153184, 0.119314, 0.103196, 0.091384, 0.081767, 0.073495,
                0.066128, 0.059401, 0.053140, 0.047217, 0.041529, 0.035984,
                0.030484, 0.024887, 0.018894]
  | 16 => some [0.144271, 0.113346, 0.098600, 0.087801, 0.079021, 0.071476,
                0.064771, 0.058660, 0.052989, 0.047646, 0.042539, 0.037597,
                0.032748, 0.027911, 0.022969, 0.017653]
  | _ => none

/-- Tabulated `bi` coefficients, keyed by sample size (`bi['n = NN']`). -/
def biTable (n : ℕ) : Option (List ℚ) :=
  match n with
  | 2 => some [-0.721348, 0.721348]
  | 3 => some [-0.630541, 0.255816, 0.374725]
  | 4 => some [-0.558619, 0.085903, 0.223919, 0.248797]
  | 5 => some [-0.503127, 0.006534, 0.130455, 0.181656, 0.184483]
  | 6 => some [-0.459273, -0.035992, 0.073199, 0.126724, 0.149534, 0.145807]
  | 7 => some [-0.423700, -0.060698, 0.036192, 0.087339, 0.114868, 0.125859,
               0.120141]
  | 8 => some [-0.394187, -0.075767, 0.011124, 0.058928, 0.087162, 0.102728,
               0.108074, 0.101936]
  | 9 => some [-0.369242, -0.085203, -0.006486, 0.037977, 0.065574, 0.082654,
               0.091965, 0.094369, 0.088391]
  | 10 => some [-0.347830, -0.091158, -0.019210, 0.022179, 0.048671, 0.066064,
                0.077021, 0.082771, 0.083552, 0.077940]
  | 11 => some [-0.329210, -0.094869, -0.028604, 0.010032, 0.035284, 0.052464,
                0.064071, 0.071381, 0.074977, 0.074830, 0.069644]
  | 12 => some [-0.312840, -0.097086, -0.035655, 0.000534, 0.024548, 0.041278,
                0.053053, 0.061112, 0.066122, 0.068357, 0.067671, 0.062906]
  | 13 => some [-0.298313, -0.098284, -0.041013, -0.006997, 0.015836, 0.032014,
                0.043710, 0.052101, 0.057862, 0.061355, 0.062699, 0.061699,
                0.057330]
  | 14 => some [-0.285316, -0.098775, -0.045120, -0.013039, 0.008690, 0.024282,
                0.035768, 0.044262, 0.050418, 0.054624, 0.057083, 0.057829,
                0.056652, 0.052642]
  | 15 => some [-0.273606, -0.098768, -0.048285, -0.017934, 0.002773, 0.017779,
                0.028988, 0.037452, 0.043798, 0.048415, 0.051534, 0.053267,
                0.053603, 0.052334, 0.048648]
  | 16 => some [-0.262990, -0.098406, -0.050731, -0.021933, -0.002167, 0.012270,
                0.023168, 0.031528, 0.037939, 0.042787, 0.046308, 0.048646,
                0.049860, 0.049912, 0.048602, 0.045207]
  | _ => none

/-- `math.factorial`: raises (here `none`) on a negative argument. -/
def pyFactorial (n : ℤ) : Option ℚ :=
  if n < 0 then none else some (Nat.factorial n.toNat)

/-- The local `hyp(n, m, i, t)` of `_ppp_lieblein`:
`C(i, t) * C(n - i, m - t) / C(n, m)` via factorials; any negative factorial
argument raises (and the raising term is skipped by the caller). -/
def hyp (n m i t : ℤ) : Option ℚ := do
  let fi ← pyFactorial i
  let ft ← pyFactorial t
  let fit ← pyFactorial (i - t)
  let fni ← pyFactorial (n - i)
  let fmt ← pyFactorial (m - t)
  let fnimt ← pyFactorial ((n - i) - (m - t))
  let fn ← pyFactorial n
  let fm ← pyFactorial m
  let fnm ← pyFactorial (n - m)
  pure ((fi / (ft * fit)) * (fni / (fmt * fnimt)) / (fn / (fm * fnm)))

/-- One term of the inner `for t in range(m)` loop of `coeffs`: the term is
added only when no factorial in `hyp` raises (the `try/except: pass`). -/
def coeffsTerm (tbl : Option (List ℚ)) (n m i t : ℕ) : ℚ :=
  match (do
    let l ← tbl
    let v ← l.get? t
    let h ← hyp n m (i + 1) (t + 1)
    pure (v * (((t : ℚ) + 1) / ((i : ℚ) + 1)) * h)) with
  | some q => q
  | none => 0

/-- The `coeffs(n, m)` function of `_ppp_lieblein`: extends the tabulated
size-`m` coefficients to sample size `n` by hypergeometric probability
weighting.  Returns the pair of lists `(aip, bip)`. -/
def coeffs (n m : ℕ) : List ℚ × List ℚ :=
  ((List.range n).map
      (fun i => ((List.range m).map (coeffsTerm (aiTable m) n m i)).sum),
   (List.range n).map
      (fun i => ((List.range m).map (coeffsTerm (biTable m) n m i)).sum))

/-! ## Properties of the percentile-index computation (claims about
`bootstrap_ci`). -/

theorem percentileRow_getD_of_lt (rows : List (List ℚ)) (i j : ℕ)
    (hj : j < (rows.headD []).length) :
    (percentileRow rows i).getD j 0 =
      (List.insertionSort (· ≤ ·) (ensembleCol rows j)).getD i 0 := by
  unfold percentileRow
  rw [List.getD_eq_getElem _ _ (by simpa using hj)]
  simp

theorem percentileRow_getD_of_ge (rows : List (List ℚ)) (i j : ℕ)
    (hj : (rows.headD []).length ≤ j) :
    (percentileRow rows i).getD j 0 = 0 := by
  apply List.getD_eq_default
  simpa [percentileRow] using hj

theorem sorted_getD_mono (l : List ℚ) (i j : ℕ) (hij : i ≤ j)
    (hj : j < l.length) (hs : List.Sorted (· ≤ ·) l) :
    l.getD i 0 ≤ l.getD j 0 := by
  have hi : i < l.length := lt_of_le_of_lt hij hj
  rw [List.getD_eq_getElem _ _ hi, List.getD_eq_getElem _ _ hj]
  have := hs.rel_get_of_le (a := ⟨i, hi⟩) (b := ⟨j, hj⟩) (by exact hij)
  simpa using this

theorem nvalLo_nonneg (n : ℕ) (alpha : ℚ) (hn : 2 ≤ n) (h0 : 0 < alpha) :
    0 ≤ nvalLo n alpha := by
  apply roundHalfEven_nonneg
  have h1 : (1 : ℚ) ≤ (n : ℚ) - 1 := by
    have : (2 : ℚ) ≤ (n : ℚ) := by exact_mod_cast hn
    linarith
  positivity

theorem nvalLo_le_nvalHi (n : ℕ) (alpha : ℚ) (hn : 2 ≤ n) (h1 : alpha < 1)
    (h0 : 0 < alpha) : nvalLo n alpha ≤ nvalHi n alpha := by
  apply roundHalfEven_mono
  have hpos : (0 : ℚ) ≤ (n : ℚ) - 1 := by
    have : (2 : ℚ) ≤ (n : ℚ) := by exact_mod_cast hn
    linarith
  apply mul_le_mul_of_nonneg_left _ hpos
  linarith

theorem nvalHi_nonneg (n : ℕ) (alpha : ℚ) (hn : 2 ≤ n) (h1 : alpha < 1) :
    0 ≤ nvalHi n alpha := by
  apply roundHalfEven_nonneg
  have h2 : (1 : ℚ) ≤ (n : ℚ) - 1 := by
    have : (2 : ℚ) ≤ (n : ℚ) := by exact_mod_cast hn
    linarith
  have : (0 : ℚ) < 1 - alpha / 2 := by linarith
  positivity

theorem nvalHi_le (n : ℕ) (alpha : ℚ) (hn : 2 ≤ n) (h0 : 0 < alpha) :
    nvalHi n alpha ≤ (n : ℤ) - 1 := by
  have hlt : ((n : ℚ) - 1) * (1 - alpha / 2) < (n : ℚ) - 1 := by
    have h2 : (1 : ℚ) ≤ (n : ℚ) - 1 := by
      have : (2 : ℚ) ≤ (n : ℚ) := by exact_mod_cast hn
      linarith
    nlinarith
  have hfloor : ⌊((n : ℚ) - 1) * (1 - alpha / 2)⌋ < (n : ℤ) - 1 := by
    rw [Int.floor_lt]
    push_cast
    linarith
  calc nvalHi n alpha ≤ ⌊((n : ℚ) - 1) * (1 - alpha / 2)⌋ + 1 :=
        roundHalfEven_le_floor_add_one _
  _ ≤ (n : ℤ) - 1 := by omega

/-- C3: for every replicate count `n >= 2` and `alpha` in `(0,1)`,
`bootstrap_ci` sorts the ensemble along the replicate axis and indexes it at
`round((n-1)*alpha/2)` and `round((n-1)*(1-alpha/2))`; both indices lie in
`[0, n-1]`, and in every output dimension the returned lower value is at
most the returned upper value. -/
theorem bootstrap_ci_percentile_spec (rows : List (List ℚ)) (alpha : ℚ)
    (hn : 2 ≤ rows.length) (h0 : 0 < alpha) (h1 : alpha < 1) :
    (0 ≤ nvalLo rows.length alpha ∧
     nvalLo rows.length alpha ≤ (rows.length : ℤ) - 1 ∧
     0 ≤ nvalHi rows.length alpha ∧
     nvalHi rows.length alpha ≤ (rows.length : ℤ) - 1 ∧
     nvalLo rows.length alpha ≤ nvalHi rows.length alpha) ∧
    (∀ j, (bootstrap_ci rows alpha).lower.getD j 0 ≤
          (bootstrap_ci rows alpha).upper.getD j 0) := by
  have hLoHi := nvalLo_le_nvalHi rows.length alpha hn h1 h0
  have hHiLe := nvalHi_le rows.length alpha hn h0
  have hLo0 := nvalLo_nonneg rows.length alpha hn h0
  have hHi0 := nvalHi_nonneg rows.length alpha hn h1
  refine ⟨⟨hLo0, by omega, hHi0, hHiLe, hLoHi⟩, ?_⟩
  intro j
  by_cases hj : j < (rows.headD []).length
  · show (percentileRow rows (nvalLo rows.length alpha).toNat).getD j 0 ≤
        (percentileRow rows (nvalHi rows.length alpha).toNat).getD j 0
    rw [percentileRow_getD_of_lt _ _ _ hj, percentileRow_getD_of_lt _ _ _ hj]
    apply sorted_getD_mono
    · omega
    · rw [List.length_insertionSort]
      unfold ensembleCol
      rw [List.length_map]
      omega
    · exact List.sorted_insertionSort _ _
  · show (percentileRow rows (nvalLo rows.length alpha).toNat).getD j 0 ≤
        (percentileRow rows (nvalHi rows.length alpha).toNat).getD j 0
    rw [percentileRow_getD_of_ge _ _ _ (by omega),
        percentileRow_getD_of_ge _ _ _ (by omega)]

/-- Witness for C3 at the concrete ensemble `[[1],[2],[3]]`, `alpha = 1/2`. -/
theorem bootstrap_ci_percentile_spec_witness :
    ((2 ≤ ([[(1 : ℚ)], [2], [3]] : List (List ℚ)).length) ∧
     ((0 : ℚ) < 1 / 2) ∧ ((1 / 2 : ℚ) < 1)) ∧
    ((0 ≤ nvalLo ([[(1 : ℚ)], [2], [3]] : List (List ℚ)).length (1 / 2) ∧
      nvalLo ([[(1 : ℚ)], [2], [3]] : List (List ℚ)).length (1 / 2) ≤
        (([[(1 : ℚ)], [2], [3]] : List (List ℚ)).length : ℤ) - 1 ∧
      0 ≤ nvalHi ([[(1 : ℚ)], [2], [3]] : List (List ℚ)).length (1 / 2) ∧
      nvalHi ([[(1 : ℚ)], [2], [3]] : List (List ℚ)).length (1 / 2) ≤
        (([[(1 : ℚ)], [2], [3]] : List (List ℚ)).length : ℤ) - 1 ∧
      nvalLo ([[(1 : ℚ)], [2], [3]] : List (List ℚ)).length (1 / 2) ≤
        nvalHi ([[(1 : ℚ)], [2], [3]] : List (List ℚ)).length (1 / 2)) ∧
     (∀ j, (bootstrap_ci ([[(1 : ℚ)], [2], [3]] : List (List ℚ)) (1 / 2)).lower.getD j 0 ≤
           (bootstrap_ci ([[(1 : ℚ)], [2], [3]] : List (List ℚ)) (1 / 2)).upper.getD j 0)) :=
  ⟨⟨by decide, one_half_pos, one_half_lt_one⟩,
   bootstrap_ci_percentile_spec [[(1 : ℚ)], [2], [3]] (1 / 2)
     (by decide) one_half_pos one_half_lt_one⟩

/-- C4 (amended): the strong instability warning fires exactly when a
computed percentile index equals `0` or `n - 1`; the milder warning fires
exactly when no index is extremal and some index is `< 10` or `>= n - 10`
(the `elif` suppresses it when the strong warning fires); and in all cases
the interval rows are still computed and returned. -/
theorem bootstrap_warning_characterization (rows : List (List ℚ)) (alpha : ℚ) :
    (Warn.strong ∈ (bootstrap_ci rows alpha).warns ↔
      (nvalLo rows.length alpha = 0 ∨ nvalHi rows.length alpha = 0 ∨
       nvalLo rows.length alpha = (rows.length : ℤ) - 1 ∨
       nvalHi rows.length alpha = (rows.length : ℤ) - 1)) ∧
    (Warn.mild ∈ (bootstrap_ci rows alpha).warns ↔
      (¬(nvalLo rows.length alpha = 0 ∨ nvalHi rows.length alpha = 0 ∨
         nvalLo rows.length alpha = (rows.length : ℤ) - 1 ∨
         nvalHi rows.length alpha = (rows.length : ℤ) - 1) ∧
       (nvalLo rows.length alpha < 10 ∨ nvalHi rows.length alpha < 10 ∨
        (rows.length : ℤ) - 10 ≤ nvalLo rows.length alpha ∨
        (rows.length : ℤ) - 10 ≤ nvalHi rows.length alpha))) ∧
    (bootstrap_ci rows alpha).lower =
      percentileRow rows (nvalLo rows.length alpha).toNat ∧
    (bootstrap_ci rows alpha).upper =
      percentileRow rows (nvalHi rows.length alpha).toNat := by
  refine ⟨?_, ?_, rfl, rfl⟩ <;>
    · show _ ∈ bootstrapWarns rows.length alpha ↔ _
      unfold bootstrapWarns
      split_ifs with hA hB <;> simp_all

/-- C4 counterexample: with `n = 30` replicates and `alpha = 1/100` the
lower percentile index is `0` (so it is `< 10`), yet only the strong warning
is emitted — the milder warning does not fire although an index lies within
the 10 most extreme replicates. -/
theorem bootstrap_mild_warning_cex :
    nvalLo 30 (1 / 100) = 0 ∧ (0 : ℤ) < 10 ∧
    Warn.mild ∉ (bootstrap_ci (List.replicate 30 [(1 : ℚ)]) (1 / 100)).warns ∧
    Warn.strong ∈ (bootstrap_ci (List.replicate 30 [(1 : ℚ)]) (1 / 100)).warns := by
  norm_num [bootstrap_ci, bootstrapWarns, nvalLo, nvalHi, roundHalfEven]
  decide

/-! ## The Lieblein extension at sample size 16 (claim C5). -/

theorem hyp_off_diag (i t : ℕ) (hi : i < 16) (ht : t < 16) (hne : t ≠ i) :
    hyp 16 16 ((i : ℤ) + 1) ((t : ℤ) + 1) = none := by
  rcases Nat.lt_or_ge t i with hlt | hge
  · have c1 : ¬(((i : ℤ) + 1) < 0) := by omega
    have c2 : ¬(((t : ℤ) + 1) < 0) := by omega
    have c3 : ¬(((i : ℤ) + 1) - ((t : ℤ) + 1) < 0) := by omega
    have c4 : ¬((16 : ℤ) - ((i : ℤ) + 1) < 0) := by omega
    have c5 : ¬((16 : ℤ) - ((t : ℤ) + 1) < 0) := by omega
    have c6 : ((16 : ℤ) - ((i : ℤ) + 1)) - ((16 : ℤ) - ((t : ℤ) + 1)) < 0 := by
      omega
    simp [hyp, pyFactorial, c1, c2, c3, c4, c5, c6]
    omega
  · have hgt : i < t := by omega
    have c1 : ¬(((i : ℤ) + 1) < 0) := by omega
    have c2 : ¬(((t : ℤ) + 1) < 0) := by omega
    have c3 : ((i : ℤ) + 1) - ((t : ℤ) + 1) < 0 := by omega
    simp [hyp, pyFactorial, c1, c2, c3]
    omega

theorem hyp_diag (i : ℕ) (hi : i < 16) :
    hyp 16 16 ((i : ℤ) + 1) ((i : ℤ) + 1) = some 1 := by
  have c1 : ¬(((i : ℤ) + 1) < 0) := by omega
  have c3 : ¬(((i : ℤ) + 1) - ((i : ℤ) + 1) < 0) := by omega
  have c4 : ¬((16 : ℤ) - ((i : ℤ) + 1) < 0) := by omega
  have c6 : ¬(((16 : ℤ) - ((i : ℤ) + 1)) - ((16 : ℤ) - ((i : ℤ) + 1)) < 0) := by
    omega
  have c7 : ¬((16 : ℤ) < 0) := by omega
  have c9 : ¬((16 : ℤ) - 16 < 0) := by omega
  have ha : ((((i : ℤ) + 1).toNat.factorial : ℚ)) ≠ 0 :=
    Nat.cast_ne_zero.mpr (Nat.factorial_ne_zero _)
  have hb : ((((16 : ℤ) - ((i : ℤ) + 1)).toNat.factorial : ℚ)) ≠ 0 :=
    Nat.cast_ne_zero.mpr (Nat.factorial_ne_zero _)
  have hz : (((i : ℤ) + 1) - ((i : ℤ) + 1)) = 0 := by omega
  have hz2 : (((16 : ℤ) - ((i : ℤ) + 1)) - ((16 : ℤ) - ((i : ℤ) + 1))) = 0 := by
    omega
  have hz3 : ((16 : ℤ) - 16) = 0 := by omega
  simp [hyp, pyFactorial, c1, c3, c4, c6, c7, c9, hz, hz2, hz3,
    Nat.factorial_zero, div_self, ha, hb]
  rw [div_self (Nat.cast_ne_zero.mpr (Nat.factorial_ne_zero (i + 1))),
      div_self (Nat.cast_ne_zero.mpr (Nat.factorial_ne_zero 16))]
  norm_num

theorem coeffsTerm_off_diag (tbl : List ℚ) (i t : ℕ) (hi : i < 16)
    (ht : t < 16) (hne : t ≠ i) :
    coeffsTerm (some tbl) 16 16 i t = 0 := by
  have hh := hyp_off_diag i t hi ht hne
  cases hgt : tbl.get? t <;> simp [coeffsTerm, hh, hgt]

theorem coeffsTerm_diag (tbl : List ℚ) (i : ℕ) (hi : i < 16)
    (hlen : tbl.length = 16) :
    coeffsTerm (some tbl) 16 16 i i = tbl.getD i 0 := by
  have hi2 : i < tbl.length := by omega
  have hh := hyp_diag i hi
  have hget : tbl[i]? = some tbl[i] := List.getElem?_eq_getElem hi2
  have hiq : ((i : ℚ) + 1) ≠ 0 := by positivity
  rw [List.getD_eq_getElem _ _ hi2]
  simp [coeffsTerm, hh, hget, div_self hiq]

theorem sum_range_map_eq_single (n : ℕ) (f : ℕ → ℚ) (i : ℕ) (hi : i < n)
    (h0 : ∀ t, t < n → t ≠ i → f t = 0) :
    ((List.range n).map f).sum = f i := by
  induction n with
  | zero => omega
  | succ k ih =>
    rw [List.range_succ, List.map_append, List.sum_append]
    rcases Nat.lt_or_ge i k with hik | hik
    · rw [ih hik (fun t ht hne => h0 t (by omega) hne)]
      simp [h0 k (by omega) (by omega)]
    · have hik2 : i = k := by omega
      subst hik2
      have hz : ((List.range i).map f).sum = 0 := by
        apply List.sum_eq_zero
        intro x hx
        simp only [List.mem_map, List.mem_range] at hx
        obtain ⟨t, ht, rfl⟩ := hx
        exact h0 t (by omega) (by omega)
      simp [hz]

theorem coeffs_fixed_at_16 (tbl : List ℚ) (hlen : tbl.length = 16) :
    (List.range 16).map
      (fun i => ((List.range 16).map (coeffsTerm (some tbl) 16 16 i)).sum) =
      tbl := by
  apply List.ext_getElem
  · simp [hlen]
  · intro i h1 h2
    have hi : i < 16 := by simpa using h1
    rw [List.getElem_map, List.getElem_range]
    rw [sum_range_map_eq_single 16 _ i hi
      (fun t ht hne => coeffsTerm_off_diag tbl i t hi ht hne)]
    rw [coeffsTerm_diag tbl i hi hlen]
    rw [List.getD_eq_getElem _ _ (by omega)]

/-- C5: the hypergeometric-probability-weighted coefficient extension,
evaluated at sample size 16 against the size-16 table, reproduces the
tabulated coefficient lists `ai['n = 16']` and `bi['n = 16']` exactly,
element by element. -/
theorem lieblein_coeffs_reduce_at_16 :
    coeffs 16 16 = ((aiTable 16).getD [], (biTable 16).getD []) := by
  have ha : ((aiTable 16).getD []).length = 16 := by decide
  have hb : ((biTable 16).getD []).length = 16 := by decide
  unfold coeffs
  rw [show aiTable 16 = some ((aiTable 16).getD []) from rfl,
      show biTable 16 = some ((biTable 16).getD []) from rfl]
  rw [coeffs_fixed_at_16 _ ha, coeffs_fixed_at_16 _ hb]
  simp

/-! ## Construction order of the classic models
(`skextremes/models/classic.py`, `_Base.__init__`).

The constructor validates `fit_method`, then runs `self._fit()` (the
numeric fitting work: optimizer / L-moment / moment computation), then
computes return levels if requested, then validates `ci`, then — only when
`ci` is truthy — validates the `(fit_method, ci_method)` pair and runs the
confidence-interval computation. -/

inductive InitAction where
  | validateFitMethod : InitAction
  | numericFit : InitAction
  | computeReturnLevels : InitAction
  | validateCi : InitAction
  | validateCiMethod : InitAction
  | computeCi : InitAction
deriving DecidableEq, Repr

/-- Result of running `_Base.__init__`: the ordered actions performed and
the error message of the `ValueError`, if one was raised. -/
structure InitTrace where
  trace : List InitAction
  errorMsg : Option String
deriving DecidableEq, Repr

def validFitMethods : List String := ["mle", "mom", "lmoments"]

def fitMethodErrMsg : String :=
  "fit methods accepted are: mle (Maximum Likelihood Estimation), lmoments, mom (method of moments)"

def ciErrMsg : String := "ci should be a value in the interval 0 < ci < 1"

def ciMethodErrMsg : String :=
  "You should provide a valid value for the confidence interval calculation, ci_method"

/-- Python truthiness of the `ci_method` argument (`None` and the empty
string are falsy). -/
def cmTruthy : Option String → Bool
  | none => false
  | some s => s ≠ ""

/-- The `(fit_method, ci_method)` compatibility chain of `_Base.__init__`:
`mle` allows `delta` and `bootstrap`; `lmoments` and `mom` allow only
`bootstrap`; a falsy `ci_method` is never accepted. -/
def ciMethodOk (fm : String) (cm : Option String) : Bool :=
  cmTruthy cm &&
    ((fm == "mle" && (cm == some "delta" || cm == some "bootstrap")) ||
     (fm == "lmoments" && cm == some "bootstrap") ||
     (fm == "mom" && cm == some "bootstrap"))

/-- `_Base.__init__` as an ordered action trace: mirrors the statement
order of the source, in particular that `self._fit()` runs before the `ci`
and `ci_method` validations. -/
def classicInit (fm : String) (hasReturnPeriods : Bool) (ci : ℚ)
    (cm : Option String) : InitTrace :=
  if fm ∈ validFitMethods then
    let t1 : List InitAction :=
      [InitAction.validateFitMethod, InitAction.numericFit] ++
        (if hasReturnPeriods then [InitAction.computeReturnLevels] else [])
    if ci = 0 ∨ (0 < ci ∧ ci < 1) then
      if ci ≠ 0 then
        if ciMethodOk fm cm then
          ⟨t1 ++ [InitAction.validateCi, InitAction.validateCiMethod, InitAction.computeCi],
           none⟩
        else
          ⟨t1 ++ [InitAction.validateCi, InitAction.validateCiMethod],
           some ciMethodErrMsg⟩
      else ⟨t1 ++ [InitAction.validateCi], none⟩
    else ⟨t1 ++ [InitAction.validateCi], some ciErrMsg⟩
  else ⟨[InitAction.validateFitMethod], some fitMethodErrMsg⟩

/-- C2 counterexample: constructing `GEV(data, fit_method='mle', ci=2)`
raises the `ci`-range configuration error only after the numeric fit has
already executed — the trace of the constructor contains the fit step
before the failing validation. -/
theorem classicInit_fit_before_ci_validation_cex :
    classicInit "mle" false 2 none =
      ⟨[InitAction.validateFitMethod, InitAction.numericFit, InitAction.validateCi],
       some ciErrMsg⟩ ∧
    InitAction.numericFit ∈ (classicInit "mle" false 2 none).trace := by
  have hmem : "mle" ∈ validFitMethods := by decide
  have hci : ¬((2 : ℚ) = 0 ∨ ((0 : ℚ) < 2 ∧ (2 : ℚ) < 1)) := by
    push_neg
    norm_num
  refine ⟨?_, ?_⟩ <;> simp [classicInit, hmem, hci]

/-- C2 (amended): an unsupported `fit_method` is rejected before any
numeric work, but the `ci`-range and `(fit_method, ci_method)`
compatibility errors are raised only after the numeric fit has already
executed. -/
theorem classicInit_validation_order (fm : String) (rp : Bool) (ci : ℚ)
    (cm : Option String) :
    (fm ∉ validFitMethods →
      classicInit fm rp ci cm =
        ⟨[InitAction.validateFitMethod], some fitMethodErrMsg⟩ ∧
      InitAction.numericFit ∉ (classicInit fm rp ci cm).trace) ∧
    (((classicInit fm rp ci cm).errorMsg = some ciErrMsg ∨
      (classicInit fm rp ci cm).errorMsg = some ciMethodErrMsg) →
      InitAction.numericFit ∈ (classicInit fm rp ci cm).trace) := by
  unfold classicInit
  split_ifs with h1 h2 h3 h4 <;>
    simp_all [fitMethodErrMsg, ciErrMsg, ciMethodErrMsg]

/-- Witness for C2's amended statement: an invalid fit method is rejected
with no numeric work. -/
theorem classicInit_validation_order_witness :
    classicInit "bogus" false 0 none =
      ⟨[InitAction.validateFitMethod], some fitMethodErrMsg⟩ ∧
    InitAction.numericFit ∉ (classicInit "bogus" false 0 none).trace :=
  (classicInit_validation_order "bogus" false 0 none).1 (by decide)

/-! ## Gumbel fitting (`Gumbel._fit` in `skextremes/models/classic.py` and
`gum_momfit` in `skextremes/utils.py`). -/

inductive FitMethod where
  | mle : FitMethod
  | lmoments : FitMethod
  | mom : FitMethod
deriving DecidableEq, Repr

/-- The frozen scipy distribution held by a fitted model. -/
inductive FrozenDistr where
  | genextreme (c loc scale : ℚ) : FrozenDistr
  | gumbel_r (loc scale : ℚ) : FrozenDistr
deriving DecidableEq, Repr

/-- External collaborators of the Gumbel fit: `scipy.stats.gumbel_r.fit`
and `lmoments3.distr.gum.lmom_fit` both return a `(loc, scale)` pair;
`np.sqrt` and `np.pi` are the numeric externals used by `gum_momfit`. -/
structure GumbelExt where
  gumbelMleFit : List ℚ → ℚ × ℚ
  gumbelLmomFit : List ℚ → ℚ × ℚ
  sqrtQ : ℚ → ℚ
  piQ : ℚ

/-- `gum_momfit` (`skextremes/utils.py`): method-of-moments Gumbel fit.
Returns the literal triple `(0, loc, scale)` with
`scale = std * sqrt(6) / pi` and `loc = mean - scale * euler_cte`. -/
def gum_momfit (ext : GumbelExt) (data : List ℚ) : ℚ × ℚ × ℚ :=
  let mean := data.sum / (data.length : ℚ)
  let std := ext.sqrtQ ((data.map (fun x => (x - mean) ^ 2)).sum / (data.length : ℚ))
  let euler_cte : ℚ := 0.5772156649015328606065120900824024310421
  let scale := std * ext.sqrtQ 6 / ext.piQ
  (0, mean - scale * euler_cte, scale)

/-- A fitted model as populated by `Gumbel._fit`: the `params` ordered
dictionary, the `c`/`loc`/`scale` attributes copied from it, and the
frozen distribution. -/
structure GumbelModel where
  params_shape : ℚ
  params_location : ℚ
  params_scale : ℚ
  c : ℚ
  loc : ℚ
  scale : ℚ
  distr : FrozenDistr
deriving DecidableEq, Repr

/-- `Gumbel._fit`: all three fit methods store `shape = 0` in `params`
(`mle` and `lmoments` literally, `mom` through `gum_momfit`), copy the
params into the attributes, and freeze `gumbel_r(loc, scale)`. -/
def gumbelFit (ext : GumbelExt) (m : FitMethod) (data : List ℚ) : GumbelModel :=
  let p : ℚ × ℚ × ℚ :=
    match m with
    | FitMethod.mle =>
        let r := ext.gumbelMleFit data
        (0, r.1, r.2)
    | FitMethod.lmoments =>
        let r := ext.gumbelLmomFit data
        (0, r.1, r.2)
    | FitMethod.mom => gum_momfit ext data
  { params_shape := p.1
    params_location := p.2.1
    params_scale := p.2.2
    c := p.1
    loc := p.2.1
    scale := p.2.2
    distr := FrozenDistr.gumbel_r p.2.1 p.2.2 }

/-- C9: for every sample and every fit method, a Gumbel fit reports shape
exactly `0` — both in `params` and in the `c` attribute — and the frozen
distribution is the two-parameter `gumbel_r` with the fitted location and
scale.  The embedding is a pure function of the inputs, so the property is
established at construction and never changes. -/
theorem gumbel_fit_shape_zero (ext : GumbelExt) (m : FitMethod)
    (data : List ℚ) :
    (gumbelFit ext m data).params_shape = 0 ∧
    (gumbelFit ext m data).c = 0 ∧
    (gumbelFit ext m data).distr =
      FrozenDistr.gumbel_r (gumbelFit ext m data).loc
        (gumbelFit ext m data).scale := by
  cases m <;> simp [gumbelFit, gum_momfit]

/-! ## Delta-method confidence intervals
(`GEV._nnlf` and `GEV._ci_delta` in `skextremes/models/classic.py`). -/

/-- External numeric collaborators of `_ci_delta`: the `numdifftools`
Hessian of `self._nnlf`, `np.linalg.inv`, `np.sqrt`, `scipy.stats.norm.ppf`,
`np.log`, `np.exp`, float `**`, and the frozen distribution's `isf`. -/
structure DeltaExt where
  hessian : List ℚ → List (List ℚ)
  matInv : List (List ℚ) → List (List ℚ)
  sqrtQ : ℚ → ℚ
  normPpf : ℚ → ℚ
  logQ : ℚ → ℚ
  expQ : ℚ → ℚ
  powQ : ℚ → ℚ → ℚ
  isf : ℚ → ℚ

/-- Entry `(i, j)` of a matrix stored as a row list. -/
def mget (M : List (List ℚ)) (i j : ℕ) : ℚ := (M.getD i []).getD j 0

/-- `np.arange(start, stop, step)`: `ceil((stop - start)/step)` points
`start + k * step`. -/
def arangeQ (start stop step : ℚ) : List ℚ :=
  (List.range (⌈(stop - start) / step⌉).toNat).map
    (fun (k : ℕ) => start + (k : ℚ) * step)

/-- The return-period grid `T = np.arange(0.1, 500.1, 0.1)` of
`_ci_delta`. -/
def deltaT : List ℚ := arangeQ (1 / 10) (5001 / 10) (1 / 10)

/-- Body of `GEV._nnlf` given the parsed `(c, loc, scale)`: the 3-parameter
GEV negative log-likelihood when `c != 0`, and the 2-parameter Gumbel form
when `c == 0`. -/
def nnlfBody (ext : DeltaExt) (x : List ℚ) (c loc scale : ℚ) : ℚ :=
  if c ≠ 0 then
    (x.length : ℚ) * ext.logQ scale +
      (1 + 1 / c) *
        (x.map (fun xi => ext.logQ (1 + c * ((xi - loc) / scale)))).sum +
      (x.map (fun xi => ext.powQ (1 + c * ((xi - loc) / scale)) (-(1 / c)))).sum
  else
    (x.length : ℚ) * ext.logQ scale +
      (x.map (fun xi => (xi - loc) / scale)).sum +
      (x.map (fun xi => ext.expQ (-((xi - loc) / scale)))).sum

/-- `GEV._nnlf`: a length-3 `theta` is read as `(c, loc, scale)`, a
length-2 `theta` as `(loc, scale)` with `c = 0`; anything else leaves `c`
unbound (a `NameError`, modelled as `none`). -/
def nnlf (ext : DeltaExt) (x : List ℚ) (theta : List ℚ) : Option ℚ :=
  match theta with
  | [c, loc, scale] => some (nnlfBody ext x c loc scale)
  | [loc, scale] => some (nnlfBody ext x 0 loc scale)
  | _ => none

/-- The point at which `_ci_delta` evaluates the Hessian in the GEV branch:
`[c, loc, scale]` with `c = -self.c` (the shape is negated, source line
`c = -self.c  # We negate the shape to avoid inconsistency problems!?`). -/
def hessPointGEV (shape loc scale : ℚ) : List ℚ := [-shape, loc, scale]

/-- The point at which `_ci_delta` evaluates the Hessian in the Gumbel
branch: `[loc, scale]`. -/
def hessPointGum (loc scale : ℚ) : List ℚ := [loc, scale]

/-- `gradZ` of the GEV branch of `_ci_delta`, as a function of the negated
shape `c`, the scale, and the reduced variate `s = -log(1 - frec/T)`. -/
def gradZgev (ext : DeltaExt) (c scale s : ℚ) : List ℚ :=
  [scale * (c ^ 2)⁻¹ * (1 - ext.powQ s (-c)) -
     scale * c⁻¹ * ext.powQ s (-c) * ext.logQ s,
   1,
   -(1 - ext.powQ s (-c)) / c]

/-- `gradZ` of the Gumbel branch of `_ci_delta`. -/
def gradZgum (ext : DeltaExt) (s : ℚ) : List ℚ := [1, -ext.logQ s]

/-- `np.dot(np.dot(g, M), np.matrix(g).T)`. -/
def quadForm (g : List ℚ) (M : List (List ℚ)) : ℚ :=
  ((List.range g.length).map (fun i =>
    ((List.range g.length).map
      (fun j => g.getD i 0 * mget M i j * g.getD j 0)).sum)).sum

/-- Propagated return-level standard errors of the GEV branch: for each
grid point `T`, `sqrt(gradZ . varcovar . gradZ^T)` with
`s = -log(1 - frec/T)` and `c = -shape`. -/
def seTgev (ext : DeltaExt) (shape scale frec : ℚ)
    (varcovar : List (List ℚ)) : List ℚ :=
  deltaT.map (fun t =>
    ext.sqrtQ (quadForm
      (gradZgev ext (-shape) scale (-ext.logQ (1 - frec / t))) varcovar))

/-- Propagated return-level standard errors of the Gumbel branch. -/
def seTgum (ext : DeltaExt) (frec : ℚ) (varcovar : List (List ℚ)) : List ℚ :=
  deltaT.map (fun t =>
    ext.sqrtQ (quadForm (gradZgum ext (-ext.logQ (1 - frec / t))) varcovar))

/-- Result record of `_ci_delta`: per-parameter standard errors, the three
parameter intervals of `params_ci`, and the return-level bands
`_ci_Td` / `_ci_Tu`. -/
structure DeltaResult where
  se : List ℚ
  shape_ci : ℚ × ℚ
  location_ci : ℚ × ℚ
  scale_ci : ℚ × ℚ
  ciTd : List ℚ
  ciTu : List ℚ

/-- `GEV._ci_delta`: negates the reported shape (`c = -self.c`), branches
on `if c:` between the 3-parameter GEV path and the 2-parameter Gumbel
path, inverts the Hessian of `_nnlf` at the branch's parameter point,
takes square roots of the diagonal as standard errors, and builds every
interval as the point estimate plus/minus
`norm.ppf(1 - ci/2)` times the corresponding standard error. -/
def ci_delta (ext : DeltaExt) (shape loc scale frec ci : ℚ) : DeltaResult :=
  if -shape ≠ 0 then
    let varcovar := ext.matInv (ext.hessian (hessPointGEV shape loc scale))
    let se : List ℚ :=
      [ext.sqrtQ (mget varcovar 0 0), ext.sqrtQ (mget varcovar 1 1),
       ext.sqrtQ (mget varcovar 2 2)]
    { se := se
      shape_ci := (shape - ext.normPpf (1 - ci / 2) * se.getD 0 0,
                   shape + ext.normPpf (1 - ci / 2) * se.getD 0 0)
      location_ci := (loc - ext.normPpf (1 - ci / 2) * se.getD 1 0,
                      loc + ext.normPpf (1 - ci / 2) * se.getD 1 0)
      scale_ci := (scale - ext.normPpf (1 - ci / 2) * se.getD 2 0,
                   scale + ext.normPpf (1 - ci / 2) * se.getD 2 0)
      ciTd := List.zipWith (fun v s => v - ext.normPpf (1 - ci / 2) * s)
        (deltaT.map (fun t => ext.isf (frec / t)))
        (seTgev ext shape scale frec varcovar)
      ciTu := List.zipWith (fun v s => v + ext.normPpf (1 - ci / 2) * s)
        (deltaT.map (fun t => ext.isf (frec / t)))
        (seTgev ext shape scale frec varcovar) }
  else
    let varcovar := ext.matInv (ext.hessian (hessPointGum loc scale))
    let se : List ℚ :=
      [ext.sqrtQ (mget varcovar 0 0), ext.sqrtQ (mget varcovar 1 1)]
    { se := se
      shape_ci := (0, 0)
      location_ci := (loc - ext.normPpf (1 - ci / 2) * se.getD 0 0,
                      loc + ext.normPpf (1 - ci / 2) * se.getD 0 0)
      scale_ci := (scale - ext.normPpf (1 - ci / 2) * se.getD 1 0,
                   scale + ext.normPpf (1 - ci / 2) * se.getD 1 0)
      ciTd := List.zipWith (fun v s => v - ext.normPpf (1 - ci / 2) * s)
        (deltaT.map (fun t => ext.isf (frec / t)))
        (seTgum ext frec varcovar)
      ciTu := List.zipWith (fun v s => v + ext.normPpf (1 - ci / 2) * s)
        (deltaT.map (fun t => ext.isf (frec / t)))
        (seTgum ext frec varcovar) }

/-! ## Facts about the delta-method grid and interval structure. -/

theorem deltaT_length : deltaT.length = 5000 := by
  unfold deltaT arangeQ
  rw [List.length_map, List.length_range]
  norm_num
  decide

theorem deltaT_getD (k : ℕ) (hk : k < 5000) :
    deltaT.getD k 0 = ((k : ℚ) + 1) / 10 := by
  have hk2 : k < deltaT.length := by rw [deltaT_length]; exact hk
  rw [List.getD_eq_getElem _ _ hk2]
  unfold deltaT arangeQ
  rw [List.getElem_map, List.getElem_range]
  ring

theorem deltaT_mem_bounds (t : ℚ) (ht : t ∈ deltaT) :
    1 / 10 ≤ t ∧ t ≤ 500 := by
  unfold deltaT arangeQ at ht
  rw [List.mem_map] at ht
  obtain ⟨k, hk, rfl⟩ := ht
  rw [List.mem_range] at hk
  have hk5 : k < 5000 := by
    have : (⌈((5001 : ℚ) / 10 - 1 / 10) / (1 / 10)⌉).toNat = 5000 := by
      norm_num
      decide
    omega
  have hk0 : (0 : ℚ) ≤ (k : ℚ) := Nat.cast_nonneg k
  have hk1 : (k : ℚ) ≤ 4999 := by exact_mod_cast Nat.lt_succ_iff.mp hk5
  constructor <;> nlinarith

theorem getD_zipWith (f : ℚ → ℚ → ℚ) (A B : List ℚ) (i : ℕ)
    (hA : i < A.length) (hB : i < B.length) :
    (List.zipWith f A B).getD i 0 = f (A.getD i 0) (B.getD i 0) := by
  have hz : i < (List.zipWith f A B).length := by
    rw [List.length_zipWith]; omega
  rw [List.getD_eq_getElem _ _ hz, List.getD_eq_getElem _ _ hA,
      List.getD_eq_getElem _ _ hB]
  exact List.getElem_zipWith

theorem getD_zipWith_of_ge (f : ℚ → ℚ → ℚ) (A B : List ℚ) (i : ℕ)
    (hA : A.length ≤ i) :
    (List.zipWith f A B).getD i 0 = 0 := by
  apply List.getD_eq_default
  rw [List.length_zipWith]
  omega

theorem ci_delta_gev_branch (ext : DeltaExt) (shape loc scale frec ci : ℚ)
    (hs : shape ≠ 0) :
    ci_delta ext shape loc scale frec ci =
      { se := [ext.sqrtQ (mget (ext.matInv (ext.hessian (hessPointGEV shape loc scale))) 0 0),
               ext.sqrtQ (mget (ext.matInv (ext.hessian (hessPointGEV shape loc scale))) 1 1),
               ext.sqrtQ (mget (ext.matInv (ext.hessian (hessPointGEV shape loc scale))) 2 2)]
        shape_ci :=
          (shape - ext.normPpf (1 - ci / 2) *
             ext.sqrtQ (mget (ext.matInv (ext.hessian (hessPointGEV shape loc scale))) 0 0),
           shape + ext.normPpf (1 - ci / 2) *
             ext.sqrtQ (mget (ext.matInv (ext.hessian (hessPointGEV shape loc scale))) 0 0))
        location_ci :=
          (loc - ext.normPpf (1 - ci / 2) *
             ext.sqrtQ (mget (ext.matInv (ext.hessian (hessPointGEV shape loc scale))) 1 1),
           loc + ext.normPpf (1 - ci / 2) *
             ext.sqrtQ (mget (ext.matInv (ext.hessian (hessPointGEV shape loc scale))) 1 1))
        scale_ci :=
          (scale - ext.normPpf (1 - ci / 2) *
             ext.sqrtQ (mget (ext.matInv (ext.hessian (hessPointGEV shape loc scale))) 2 2),
           scale + ext.normPpf (1 - ci / 2) *
             ext.sqrtQ (mget (ext.matInv (ext.hessian (hessPointGEV shape loc scale))) 2 2))
        ciTd := List.zipWith (fun v s => v - ext.normPpf (1 - ci / 2) * s)
          (deltaT.map (fun t => ext.isf (frec / t)))
          (seTgev ext shape scale frec
            (ext.matInv (ext.hessian (hessPointGEV shape loc scale))))
        ciTu := List.zipWith (fun v s => v + ext.normPpf (1 - ci / 2) * s)
          (deltaT.map (fun t => ext.isf (frec / t)))
          (seTgev ext shape scale frec
            (ext.matInv (ext.hessian (hessPointGEV shape loc scale)))) } := by
  unfold ci_delta
  rw [if_pos (neg_ne_zero.mpr hs)]
  rfl

theorem ci_delta_gum_branch (ext : DeltaExt) (loc scale frec ci : ℚ) :
    ci_delta ext 0 loc scale frec ci =
      { se := [ext.sqrtQ (mget (ext.matInv (ext.hessian (hessPointGum loc scale))) 0 0),
               ext.sqrtQ (mget (ext.matInv (ext.hessian (hessPointGum loc scale))) 1 1)]
        shape_ci := (0, 0)
        location_ci :=
          (loc - ext.normPpf (1 - ci / 2) *
             ext.sqrtQ (mget (ext.matInv (ext.hessian (hessPointGum loc scale))) 0 0),
           loc + ext.normPpf (1 - ci / 2) *
             ext.sqrtQ (mget (ext.matInv (ext.hessian (hessPointGum loc scale))) 0 0))
        scale_ci :=
          (scale - ext.normPpf (1 - ci / 2) *
             ext.sqrtQ (mget (ext.matInv (ext.hessian (hessPointGum loc scale))) 1 1),
           scale + ext.normPpf (1 - ci / 2) *
             ext.sqrtQ (mget (ext.matInv (ext.hessian (hessPointGum loc scale))) 1 1))
        ciTd := List.zipWith (fun v s => v - ext.normPpf (1 - ci / 2) * s)
          (deltaT.map (fun t => ext.isf (frec / t)))
          (seTgum ext frec (ext.matInv (ext.hessian (hessPointGum loc scale))))
        ciTu := List.zipWith (fun v s => v + ext.normPpf (1 - ci / 2) * s)
          (deltaT.map (fun t => ext.isf (frec / t)))
          (seTgum ext frec (ext.matInv (ext.hessian (hessPointGum loc scale)))) } := by
  unfold ci_delta
  rw [if_neg (by simp)]
  rfl

/-- C6: for the mle/delta path, the per-parameter standard errors are the
square roots of the diagonal of the inverse of the numerically computed
Hessian of the negative log-likelihood (which branches between the
3-parameter GEV form for nonzero shape and the 2-parameter Gumbel form for
shape zero); the return-period grid discretizes `[0.1, 500.0]` in steps of
`0.1`; and every parameter and return-level interval is centred on the
point estimate with half-width `norm.ppf(1 - ci/2)` times the
corresponding (propagated) standard error. -/
theorem gev_ci_delta_spec (ext : DeltaExt) (x : List ℚ)
    (shape loc scale frec ci : ℚ) (hs : shape ≠ 0) :
    (deltaT.length = 5000 ∧
     (∀ k, k < 5000 → deltaT.getD k 0 = ((k : ℚ) + 1) / 10) ∧
     (∀ t ∈ deltaT, 1 / 10 ≤ t ∧ t ≤ 500)) ∧
    (∀ l s, nnlf ext x [l, s] = some (nnlfBody ext x 0 l s)) ∧
    (∀ c l s, nnlf ext x [c, l, s] = some (nnlfBody ext x c l s)) ∧
    (ci_delta ext shape loc scale frec ci).se =
      [ext.sqrtQ (mget (ext.matInv (ext.hessian (hessPointGEV shape loc scale))) 0 0),
       ext.sqrtQ (mget (ext.matInv (ext.hessian (hessPointGEV shape loc scale))) 1 1),
       ext.sqrtQ (mget (ext.matInv (ext.hessian (hessPointGEV shape loc scale))) 2 2)] ∧
    ((ci_delta ext shape loc scale frec ci).shape_ci.1 +
       (ci_delta ext shape loc scale frec ci).shape_ci.2 = 2 * shape ∧
     (ci_delta ext shape loc scale frec ci).shape_ci.2 -
       (ci_delta ext shape loc scale frec ci).shape_ci.1 =
       2 * ext.normPpf (1 - ci / 2) *
         (ci_delta ext shape loc scale frec ci).se.getD 0 0) ∧
    ((ci_delta ext shape loc scale frec ci).location_ci.1 +
       (ci_delta ext shape loc scale frec ci).location_ci.2 = 2 * loc ∧
     (ci_delta ext shape loc scale frec ci).location_ci.2 -
       (ci_delta ext shape loc scale frec ci).location_ci.1 =
       2 * ext.normPpf (1 - ci / 2) *
         (ci_delta ext shape loc scale frec ci).se.getD 1 0) ∧
    ((ci_delta ext shape loc scale frec ci).scale_ci.1 +
       (ci_delta ext shape loc scale frec ci).scale_ci.2 = 2 * scale ∧
     (ci_delta ext shape loc scale frec ci).scale_ci.2 -
       (ci_delta ext shape loc scale frec ci).scale_ci.1 =
       2 * ext.normPpf (1 - ci / 2) *
         (ci_delta ext shape loc scale frec ci).se.getD 2 0) ∧
    (∀ i, (ci_delta ext shape loc scale frec ci).ciTu.getD i 0 +
            (ci_delta ext shape loc scale frec ci).ciTd.getD i 0 =
          2 * (deltaT.map (fun t => ext.isf (frec / t))).getD i 0 ∧
          (ci_delta ext shape loc scale frec ci).ciTu.getD i 0 -
            (ci_delta ext shape loc scale frec ci).ciTd.getD i 0 =
          2 * ext.normPpf (1 - ci / 2) *
            (seTgev ext shape scale frec
              (ext.matInv (ext.hessian (hessPointGEV shape loc scale)))).getD i 0) ∧
    (∀ loc2 scale2, (ci_delta ext 0 loc2 scale2 frec ci).se =
      [ext.sqrtQ (mget (ext.matInv (ext.hessian (hessPointGum loc2 scale2))) 0 0),
       ext.sqrtQ (mget (ext.matInv (ext.hessian (hessPointGum loc2 scale2))) 1 1)]) := by
  rw [ci_delta_gev_branch ext shape loc scale frec ci hs]
  refine ⟨⟨deltaT_length, deltaT_getD, deltaT_mem_bounds⟩,
    fun l s => rfl, fun c l s => rfl, rfl, ⟨by dsimp; ring, by dsimp; ring⟩,
    ⟨by dsimp; ring, by dsimp; ring⟩, ⟨by dsimp; ring, by dsimp; ring⟩, ?_,
    fun loc2 scale2 => by rw [ci_delta_gum_branch]⟩
  intro i
  rcases Nat.lt_or_ge i 5000 with hi | hi
  · have hA : i < (deltaT.map (fun t => ext.isf (frec / t))).length := by
      rw [List.length_map, deltaT_length]; exact hi
    have hB : i < (seTgev ext shape scale frec
        (ext.matInv (ext.hessian (hessPointGEV shape loc scale)))).length := by
      unfold seTgev
      rw [List.length_map, deltaT_length]; exact hi
    dsimp only
    rw [getD_zipWith _ _ _ _ hA hB, getD_zipWith _ _ _ _ hA hB]
    constructor <;> ring
  · have hA : (deltaT.map (fun t => ext.isf (frec / t))).length ≤ i := by
      rw [List.length_map, deltaT_length]; exact hi
    have hB : (seTgev ext shape scale frec
        (ext.matInv (ext.hessian (hessPointGEV shape loc scale)))).length ≤ i := by
      unfold seTgev
      rw [List.length_map, deltaT_length]; exact hi
    dsimp only
    rw [getD_zipWith_of_ge _ _ _ _ hA, getD_zipWith_of_ge _ _ _ _ hA,
        List.getD_eq_default _ _ hA, List.getD_eq_default _ _ hB]
    norm_num

/-- Witness for C6 at a concrete external model and `shape = 1`. -/
theorem gev_ci_delta_spec_witness :
    ((1 : ℚ) ≠ 0) ∧ deltaT.length = 5000 :=
  ⟨one_ne_zero,
   (gev_ci_delta_spec
     { hessian := fun _ => [], matInv := fun M => M, sqrtQ := fun y => y,
       normPpf := fun p => p, logQ := fun y => y, expQ := fun y => y,
       powQ := fun y _ => y, isf := fun y => y }
     [] 1 0 1 1 (1 / 2) one_ne_zero).1.1⟩

theorem seTgev_getD_nonneg (ext : DeltaExt) (shape scale frec : ℚ)
    (V : List (List ℚ)) (hsqrt : ∀ y : ℚ, 0 ≤ ext.sqrtQ y) (i : ℕ) :
    0 ≤ (seTgev ext shape scale frec V).getD i 0 := by
  rcases Nat.lt_or_ge i (seTgev ext shape scale frec V).length with hi | hi
  · rw [List.getD_eq_getElem _ _ hi]
    unfold seTgev
    rw [List.getElem_map]
    exact hsqrt _
  · rw [List.getD_eq_default _ _ hi]

theorem seTgum_getD_nonneg (ext : DeltaExt) (frec : ℚ)
    (V : List (List ℚ)) (hsqrt : ∀ y : ℚ, 0 ≤ ext.sqrtQ y) (i : ℕ) :
    0 ≤ (seTgum ext frec V).getD i 0 := by
  rcases Nat.lt_or_ge i (seTgum ext frec V).length with hi | hi
  · rw [List.getD_eq_getElem _ _ hi]
    unfold seTgum
    rw [List.getElem_map]
    exact hsqrt _
  · rw [List.getD_eq_default _ _ hi]

/-- C7: for fixed data and externals, decreasing the `ci` argument widens
every delta-method interval: with `0 < ci' < ci < 1` (and the external
contracts that `norm.ppf` is monotone and `np.sqrt` is nonnegative), each
parameter interval and each return-level interval computed at `ci'`
contains the corresponding interval computed at `ci`. -/
theorem gev_ci_delta_width_monotone (ext : DeltaExt)
    (shape loc scale frec ci ci' : ℚ) (h0 : 0 < ci') (h1 : ci' < ci)
    (h2 : ci < 1)
    (hppf : ∀ p q : ℚ, p ≤ q → ext.normPpf p ≤ ext.normPpf q)
    (hsqrt : ∀ y : ℚ, 0 ≤ ext.sqrtQ y) :
    ((ci_delta ext shape loc scale frec ci').shape_ci.1 ≤
       (ci_delta ext shape loc scale frec ci).shape_ci.1 ∧
     (ci_delta ext shape loc scale frec ci).shape_ci.2 ≤
       (ci_delta ext shape loc scale frec ci').shape_ci.2) ∧
    ((ci_delta ext shape loc scale frec ci').location_ci.1 ≤
       (ci_delta ext shape loc scale frec ci).location_ci.1 ∧
     (ci_delta ext shape loc scale frec ci).location_ci.2 ≤
       (ci_delta ext shape loc scale frec ci').location_ci.2) ∧
    ((ci_delta ext shape loc scale frec ci').scale_ci.1 ≤
       (ci_delta ext shape loc scale frec ci).scale_ci.1 ∧
     (ci_delta ext shape loc scale frec ci).scale_ci.2 ≤
       (ci_delta ext shape loc scale frec ci').scale_ci.2) ∧
    (∀ i, (ci_delta ext shape loc scale frec ci').ciTd.getD i 0 ≤
            (ci_delta ext shape loc scale frec ci).ciTd.getD i 0 ∧
          (ci_delta ext shape loc scale frec ci).ciTu.getD i 0 ≤
            (ci_delta ext shape loc scale frec ci').ciTu.getD i 0) := by
  have hz : ext.normPpf (1 - ci / 2) ≤ ext.normPpf (1 - ci' / 2) :=
    hppf _ _ (by linarith)
  by_cases hsh : shape = 0
  · subst hsh
    rw [ci_delta_gum_branch ext loc scale frec ci,
        ci_delta_gum_branch ext loc scale frec ci']
    refine ⟨⟨le_refl _, le_refl _⟩, ?_, ?_, ?_⟩
    · constructor <;> dsimp <;>
        nlinarith [hsqrt (mget (ext.matInv (ext.hessian (hessPointGum loc scale))) 0 0)]
    · constructor <;> dsimp <;>
        nlinarith [hsqrt (mget (ext.matInv (ext.hessian (hessPointGum loc scale))) 1 1)]
    · intro i
      dsimp only
      rcases Nat.lt_or_ge i 5000 with hi | hi
      · have hA : i < (deltaT.map (fun t => ext.isf (frec / t))).length := by
          rw [List.length_map, deltaT_length]; exact hi
        have hB : i < (seTgum ext frec
            (ext.matInv (ext.hessian (hessPointGum loc scale)))).length := by
          unfold seTgum
          rw [List.length_map, deltaT_length]; exact hi
        rw [getD_zipWith _ _ _ _ hA hB, getD_zipWith _ _ _ _ hA hB,
            getD_zipWith _ _ _ _ hA hB, getD_zipWith _ _ _ _ hA hB]
        have hsn := seTgum_getD_nonneg ext frec
          (ext.matInv (ext.hessian (hessPointGum loc scale))) hsqrt i
        constructor <;> nlinarith
      · have hA : (deltaT.map (fun t => ext.isf (frec / t))).length ≤ i := by
          rw [List.length_map, deltaT_length]; exact hi
        rw [getD_zipWith_of_ge _ _ _ _ hA, getD_zipWith_of_ge _ _ _ _ hA,
            getD_zipWith_of_ge _ _ _ _ hA, getD_zipWith_of_ge _ _ _ _ hA]
        exact ⟨le_refl _, le_refl _⟩
  · rw [ci_delta_gev_branch ext shape loc scale frec ci hsh,
        ci_delta_gev_branch ext shape loc scale frec ci' hsh]
    refine ⟨?_, ?_, ?_, ?_⟩
    · constructor <;> dsimp <;>
        nlinarith [hsqrt (mget (ext.matInv (ext.hessian (hessPointGEV shape loc scale))) 0 0)]
    · constructor <;> dsimp <;>
        nlinarith [hsqrt (mget (ext.matInv (ext.hessian (hessPointGEV shape loc scale))) 1 1)]
    · constructor <;> dsimp <;>
        nlinarith [hsqrt (mget (ext.matInv (ext.hessian (hessPointGEV shape loc scale))) 2 2)]
    · intro i
      dsimp only
      rcases Nat.lt_or_ge i 5000 with hi | hi
      · have hA : i < (deltaT.map (fun t => ext.isf (frec / t))).length := by
          rw [List.length_map, deltaT_length]; exact hi
        have hB : i < (seTgev ext shape scale frec
            (ext.matInv (ext.hessian (hessPointGEV shape loc scale)))).length := by
          unfold seTgev
          rw [List.length_map, deltaT_length]; exact hi
        rw [getD_zipWith _ _ _ _ hA hB, getD_zipWith _ _ _ _ hA hB,
            getD_zipWith _ _ _ _ hA hB, getD_zipWith _ _ _ _ hA hB]
        have hsn := seTgev_getD_nonneg ext shape scale frec
          (ext.matInv (ext.hessian (hessPointGEV shape loc scale))) hsqrt i
        constructor <;> nlinarith
      · have hA : (deltaT.map (fun t => ext.isf (frec / t))).length ≤ i := by
          rw [List.length_map, deltaT_length]; exact hi
        rw [getD_zipWith_of_ge _ _ _ _ hA, getD_zipWith_of_ge _ _ _ _ hA,
            getD_zipWith_of_ge _ _ _ _ hA, getD_zipWith_of_ge _ _ _ _ hA]
        exact ⟨le_refl _, le_refl _⟩

/-- Identity-style external model used by concrete witnesses. -/
def extIdQ : DeltaExt :=
  { hessian := fun v => [v], matInv := fun M => M, sqrtQ := fun _ => 1,
    normPpf := fun p => p, logQ := fun y => y, expQ := fun y => y,
    powQ := fun y _ => y, isf := fun y => y }

/-- Witness for C7 at `ci = 1/2 > ci' = 1/4` with monotone `normPpf` and
nonnegative `sqrtQ`. -/
theorem gev_ci_delta_width_monotone_witness :
    (((0 : ℚ) < 1 / 2 / 2) ∧ ((1 / 2 / 2 : ℚ) < 1 / 2) ∧ ((1 / 2 : ℚ) < 1)) ∧
    ((ci_delta extIdQ 1 0 1 1 (1 / 2 / 2)).location_ci.1 ≤
       (ci_delta extIdQ 1 0 1 1 (1 / 2)).location_ci.1 ∧
     (ci_delta extIdQ 1 0 1 1 (1 / 2)).location_ci.2 ≤
       (ci_delta extIdQ 1 0 1 1 (1 / 2 / 2)).location_ci.2) :=
  ⟨⟨div_pos one_half_pos two_pos, half_lt_self one_half_pos, one_half_lt_one⟩,
   (gev_ci_delta_width_monotone extIdQ 1 0 1 1 (1 / 2) (1 / 2 / 2)
     (div_pos one_half_pos two_pos) (half_lt_self one_half_pos)
     one_half_lt_one
     (fun _ _ h => h) (fun _ => zero_le_one)).2.1⟩

/-- C8 (amended): inside `_ci_delta` the negative log-likelihood Hessian
and the return-level gradient are evaluated at the *negation* of the
reported shape (`c = -self.c`, so the Hessian point is
`[-shape, loc, scale]` and `seTgev` builds `gradZ` from `-shape`), while
the reported shape confidence interval is centred on the reported
`params['shape']` itself. -/
theorem gev_delta_shape_sign_spec (ext : DeltaExt)
    (shape loc scale frec ci : ℚ) :
    hessPointGEV shape loc scale = [-shape, loc, scale] ∧
    (ci_delta ext shape loc scale frec ci).shape_ci.1 +
      (ci_delta ext shape loc scale frec ci).shape_ci.2 = 2 * shape ∧
    (shape ≠ 0 →
      (ci_delta ext shape loc scale frec ci).se =
        [ext.sqrtQ (mget (ext.matInv (ext.hessian [-shape, loc, scale])) 0 0),
         ext.sqrtQ (mget (ext.matInv (ext.hessian [-shape, loc, scale])) 1 1),
         ext.sqrtQ (mget (ext.matInv (ext.hessian [-shape, loc, scale])) 2 2)] ∧
      ∀ i, (ci_delta ext shape loc scale frec ci).ciTu.getD i 0 -
             (ci_delta ext shape loc scale frec ci).ciTd.getD i 0 =
           2 * ext.normPpf (1 - ci / 2) *
             (seTgev ext shape scale frec
               (ext.matInv (ext.hessian [-shape, loc, scale]))).getD i 0) := by
  refine ⟨rfl, ?_, ?_⟩
  · by_cases hsh : shape = 0
    · subst hsh
      rw [ci_delta_gum_branch]
      norm_num
    · rw [ci_delta_gev_branch ext shape loc scale frec ci hsh]
      dsimp
      ring
  · intro hs
    rw [ci_delta_gev_branch ext shape loc scale frec ci hs]
    refine ⟨rfl, ?_⟩
    intro i
    rcases Nat.lt_or_ge i 5000 with hi | hi
    · have hA : i < (deltaT.map (fun t => ext.isf (frec / t))).length := by
        rw [List.length_map, deltaT_length]; exact hi
      have hB : i < (seTgev ext shape scale frec
          (ext.matInv (ext.hessian (hessPointGEV shape loc scale)))).length := by
        unfold seTgev
        rw [List.length_map, deltaT_length]; exact hi
      dsimp only
      rw [getD_zipWith _ _ _ _ hA hB, getD_zipWith _ _ _ _ hA hB]
      simp only [hessPointGEV]
      ring
    · have hA : (deltaT.map (fun t => ext.isf (frec / t))).length ≤ i := by
        rw [List.length_map, deltaT_length]; exact hi
      have hB : (seTgev ext shape scale frec
          (ext.matInv (ext.hessian (hessPointGEV shape loc scale)))).length ≤ i := by
        unfold seTgev
        rw [List.length_map, deltaT_length]; exact hi
      dsimp only
      rw [getD_zipWith_of_ge _ _ _ _ hA, getD_zipWith_of_ge _ _ _ _ hA]
      simp only [hessPointGEV] at hB ⊢
      rw [List.getD_eq_default _ _ hB]
      ring

/-- Tracking external model: the Hessian returns its evaluation point as
the single row of the matrix, and matrix inversion and square root are
identities, so the first standard error reveals the first coordinate of
the point at which the Hessian was evaluated. -/
def extTrack : DeltaExt :=
  { hessian := fun v => [v], matInv := fun M => M, sqrtQ := fun y => y,
    normPpf := fun _ => 0, logQ := fun _ => 0, expQ := fun _ => 0,
    powQ := fun _ _ => 0, isf := fun _ => 0 }

/-- C8 counterexample: with reported shape `1`, the Hessian of the
negative log-likelihood is evaluated at first coordinate `-1`, not at the
reported `params['shape'] = 1` — the delta-method path and the reported
parameter disagree in sign — while the shape interval is still centred on
the reported `1`. -/
theorem gev_delta_shape_sign_cex :
    (ci_delta extTrack 1 5 2 1 (1 / 2)).se.getD 0 0 = -1 ∧
    ((-1 : ℚ) ≠ 1) ∧
    (ci_delta extTrack 1 5 2 1 (1 / 2)).shape_ci.1 +
      (ci_delta extTrack 1 5 2 1 (1 / 2)).shape_ci.2 = 2 * 1 := by
  rw [ci_delta_gev_branch extTrack 1 5 2 1 (1 / 2) one_ne_zero]
  refine ⟨?_, by norm_num, by dsimp; ring⟩
  simp [extTrack, hessPointGEV, mget]

/-- Witness for C8's amended statement at shape `1`. -/
theorem gev_delta_shape_sign_spec_witness :
    ((1 : ℚ) ≠ 0) ∧
    (ci_delta extIdQ 1 5 2 1 (1 / 2)).se =
      [extIdQ.sqrtQ (mget (extIdQ.matInv (extIdQ.hessian [-1, 5, 2])) 0 0),
       extIdQ.sqrtQ (mget (extIdQ.matInv (extIdQ.hessian [-1, 5, 2])) 1 1),
       extIdQ.sqrtQ (mget (extIdQ.matInv (extIdQ.hessian [-1, 5, 2])) 2 2)] :=
  ⟨one_ne_zero, by
    have h := ((gev_delta_shape_sign_spec extIdQ 1 5 2 1 (1 / 2)).2.2
      one_ne_zero).1
    norm_num at h ⊢
    exact h⟩

/-! ## Parametric bootstrap aggregation
(`GEV._ci_bootstrap` in `skextremes/models/classic.py`).

Each replicate of the parametric bootstrap contributes a row
`[c, loc, scale] ++ sT` (three parameters followed by the 5000-point
return-level curve); `bootstrap_ci` aggregates the ensemble with the
default `alpha = 0.05`, and the source indexes the two percentile rows as
`out[0, .]` / `out[1, .]` — including the literal `out[1, 3]` in the scale
interval. -/

structure BootCIResult where
  shape_ci : ℚ × ℚ
  location_ci : ℚ × ℚ
  scale_ci : ℚ × ℚ
  ciTd : List ℚ
  ciTu : List ℚ
deriving DecidableEq, Repr

/-- The aggregation stage of `GEV._ci_bootstrap` applied to the replicate
ensemble: `params_ci['shape'] = (out[0,0], out[1,0])`,
`params_ci['location'] = (out[0,1], out[1,1])`,
`params_ci['scale'] = (out[0,2], out[1,3])`, and the return-level bands
are `out[0,3:]` and `out[1,3:]`. -/
def gev_ci_bootstrap (ensemble : List (List ℚ)) : BootCIResult :=
  { shape_ci := ((bootstrap_ci ensemble (5 / 100)).lower.getD 0 0,
                 (bootstrap_ci ensemble (5 / 100)).upper.getD 0 0)
    location_ci := ((bootstrap_ci ensemble (5 / 100)).lower.getD 1 0,
                    (bootstrap_ci ensemble (5 / 100)).upper.getD 1 0)
    scale_ci := ((bootstrap_ci ensemble (5 / 100)).lower.getD 2 0,
                 (bootstrap_ci ensemble (5 / 100)).upper.getD 3 0)
    ciTd := (bootstrap_ci ensemble (5 / 100)).lower.drop 3
    ciTu := (bootstrap_ci ensemble (5 / 100)).upper.drop 3 }

/-- C1 evaluation at a failing input: for the two-replicate ensemble
`[[5, 5, 1, 2], [6, 6, 3, 9]]` (columns: shape, location, scale, one
return-level point) the upper percentile row is `[6, 6, 3, 9]`, so the
scale column's upper value is `3`; the code instead reports the scale
interval `(1, 9)`, taking its upper bound `9` from column 3 — the first
return-level column — not from the scale column.  Shape and location are
taken from their own columns. -/
theorem gev_bootstrap_scale_upper_bug :
    (gev_ci_bootstrap [[5, 5, 1, 2], [6, 6, 3, 9]]).scale_ci = (1, 9) ∧
    (bootstrap_ci [[5, 5, 1, 2], [6, 6, 3, 9]] (5 / 100)).upper.getD 2 0 = 3 ∧
    ((9 : ℚ) ≠ 3) ∧
    (gev_ci_bootstrap [[5, 5, 1, 2], [6, 6, 3, 9]]).shape_ci = (5, 6) ∧
    (gev_ci_bootstrap [[5, 5, 1, 2], [6, 6, 3, 9]]).location_ci = (5, 6) := by
  have hlo : nvalLo 2 (5 / 100) = 0 := by
    norm_num [nvalLo, roundHalfEven]
  have hhi : nvalHi 2 (5 / 100) = 1 := by
    norm_num [nvalHi, roundHalfEven]
  have hsort : ∀ j : ℕ,
      List.insertionSort (· ≤ ·)
        (ensembleCol [[(5 : ℚ), 5, 1, 2], [6, 6, 3, 9]] j) =
        ensembleCol [[(5 : ℚ), 5, 1, 2], [6, 6, 3, 9]] j := by
    intro j
    apply List.Sorted.insertionSort_eq
    unfold ensembleCol
    simp only [List.map_cons, List.map_nil]
    refine List.sorted_cons.mpr ⟨?_, List.sorted_singleton _⟩
    intro b hb
    simp only [List.mem_singleton] at hb
    subst hb
    rcases j with _ | _ | _ | _ | j <;>
      simp [List.getD, List.getElem?_cons_zero] <;> norm_num
  refine ⟨?_, ?_, by norm_num, ?_, ?_⟩ <;>
    simp [gev_ci_bootstrap, bootstrap_ci, hlo, hhi, percentileRow, hsort,
      ensembleCol] <;> norm_num

/-! ## Error funnel of the engineering estimators
(`skextremes/models/engineering.py`).

The constructors of `Harris1996`, `Lieblein` and `PPPLiterature` wrap all
work in `try: ... except: raise Exception('You should provide some data.')`.
Any internal exception — `len(None)` for missing data, the `KeyError` of
the size table lookup for `N = 1`, or the `NameError` when `ppp` matches
none of the 14 formula names and `P` is never assigned — is converted to
the same generic message. -/

/-- Python exception kinds distinguished before the bare `except` erases
them. -/
inductive PyErr where
  | typeError : PyErr
  | keyError : PyErr
  | nameError : PyErr
deriving DecidableEq, Repr

/-- The 14 recognized plotting-position formula names. -/
def pppNames : List String :=
  ["Adamowski", "Beard", "Blom", "Chegodayev", "Cunnane", "Gringorten",
   "Hazen", "Hirsch", "IEC56", "Landwehr", "Laplace", "McClung and Mears",
   "Tukey", "Weibull"]

/-- The probability-plotting-position chain of
`PPPLiterature._calculate_values`: each recognized name assigns `P` by its
own `(i, N)` formula; an unrecognized name leaves `P` unassigned
(`none`). -/
def pppCalculateP (how : String) (N : ℕ) : Option (List ℚ) :=
  if how = "Adamowski" then
    some ((List.range N).map (fun i => ((i : ℚ) + 1 - 0.25) / ((N : ℚ) + 0.5)))
  else if how = "Beard" then
    some ((List.range N).map (fun i => ((i : ℚ) + 1 - 0.31) / ((N : ℚ) + 0.38)))
  else if how = "Blom" then
    some ((List.range N).map (fun i => ((i : ℚ) + 1 - 0.375) / ((N : ℚ) + 0.25)))
  else if how = "Chegodayev" then
    some ((List.range N).map (fun i => ((i : ℚ) + 1 - 0.3) / ((N : ℚ) + 0.4)))
  else if how = "Cunnane" then
    some ((List.range N).map (fun i => ((i : ℚ) + 1 - 0.4) / ((N : ℚ) + 0.2)))
  else if how = "Gringorten" then
    some ((List.range N).map (fun i => ((i : ℚ) + 1 - 0.44) / ((N : ℚ) + 0.12)))
  else if how = "Hazen" then
    some ((List.range N).map (fun i => ((i : ℚ) + 1 - 0.5) / (N : ℚ)))
  else if how = "Hirsch" then
    some ((List.range N).map (fun i => ((i : ℚ) + 1 + 0.5) / ((N : ℚ) + 1)))
  else if how = "IEC56" then
    some ((List.range N).map (fun i => ((i : ℚ) + 1 - 0.5) / ((N : ℚ) + 0.25)))
  else if how = "Landwehr" then
    some ((List.range N).map (fun i => ((i : ℚ) + 1 - 0.35) / (N : ℚ)))
  else if how = "Laplace" then
    some ((List.range N).map (fun i => ((i : ℚ) + 1 + 1) / ((N : ℚ) + 2)))
  else if how = "McClung and Mears" then
    some ((List.range N).map (fun i => ((i : ℚ) + 1 - 0.4) / (N : ℚ)))
  else if how = "Tukey" then
    some ((List.range N).map (fun i => ((i : ℚ) + 1 - 1 / 3) / ((N : ℚ) + 1 / 3)))
  else if how = "Weibull" then
    some ((List.range N).map (fun i => ((i : ℚ) + 1) / ((N : ℚ) + 1)))
  else none

/-- Body of `PPPLiterature.__init__` before the bare `except`: `len(None)`
raises a `TypeError`; an unrecognized formula name leaves `P` unassigned
and raises a `NameError` at first use. -/
def pppBody (data : Option (List ℚ)) (ppp : String) :
    Except PyErr (List ℚ) :=
  match data with
  | none => Except.error PyErr.typeError
  | some d =>
      match pppCalculateP ppp d.length with
      | none => Except.error PyErr.nameError
      | some P => Except.ok P

/-- Body of `Lieblein.__init__` before the bare `except`: `len(None)`
raises a `TypeError`; for `N <= 16` the coefficient lookup
`ai['n = NN']` raises a `KeyError` when the size (for example `N = 1`) is
not tabulated; above 16 the `coeffs` extension is used. -/
def liebBody (data : Option (List ℚ)) : Except PyErr (List ℚ × List ℚ) :=
  match data with
  | none => Except.error PyErr.typeError
  | some d =>
      if d.length ≤ 16 then
        match aiTable d.length, biTable d.length with
        | some a, some b => Except.ok (a, b)
        | _, _ => Except.error PyErr.keyError
      else Except.ok (coeffs d.length 16)

/-- Body of `Harris1996.__init__` before the bare `except`: `len(None)`
raises a `TypeError`; the numeric work itself is external quadrature. -/
def harrisBody (data : Option (List ℚ)) : Except PyErr Unit :=
  match data with
  | none => Except.error PyErr.typeError
  | some _ => Except.ok ()

/-- The bare `except` of the three constructors: any raised exception is
replaced by the same generic `Exception('You should provide some data.')`. -/
def ctorWrap {α : Type} (body : Except PyErr α) : Except String α :=
  match body with
  | Except.error _ => Except.error "You should provide some data."
  | Except.ok v => Except.ok v

def pppInit (data : Option (List ℚ)) (ppp : String) : Except String (List ℚ) :=
  ctorWrap (pppBody data ppp)

def liebleinInit (data : Option (List ℚ)) : Except String (List ℚ × List ℚ) :=
  ctorWrap (liebBody data)

def harrisInit (data : Option (List ℚ)) : Except String Unit :=
  ctorWrap (harrisBody data)

theorem pppCalculateP_eq_none (how : String) (N : ℕ)
    (h : how ∉ pppNames) : pppCalculateP how N = none := by
  simp only [pppNames, List.mem_cons, List.not_mem_nil, or_false] at h
  push_neg at h
  obtain ⟨n1, n2, n3, n4, n5, n6, n7, n8, n9, n10, n11, n12, n13, n14⟩ := h
  unfold pppCalculateP
  rw [if_neg n1, if_neg n2, if_neg n3, if_neg n4, if_neg n5, if_neg n6,
      if_neg n7, if_neg n8, if_neg n9, if_neg n10, if_neg n11, if_neg n12,
      if_neg n13, if_neg n14]

/-- C10: an unrecognized `ppp` name, the untabulated size lookup for
`N = 1` in `Lieblein`, and missing data in any of the three constructors
all surface as the same generic
`Exception('You should provide some data.')`, so at the public interface
computation failures are indistinguishable from the missing-data
configuration error. -/
theorem engineering_error_funnel (d : List ℚ) (ppp : String) (x : ℚ)
    (hppp : ppp ∉ pppNames) :
    pppInit (some d) ppp = Except.error "You should provide some data." ∧
    liebleinInit (some [x]) = Except.error "You should provide some data." ∧
    pppInit none "Weibull" = Except.error "You should provide some data." ∧
    liebleinInit none = Except.error "You should provide some data." ∧
    harrisInit none = Except.error "You should provide some data." := by
  refine ⟨?_, ?_, rfl, rfl, rfl⟩
  · unfold pppInit pppBody
    simp only [pppCalculateP_eq_none ppp d.length hppp]
    rfl
  · rfl

/-- Witness for C10 with the unrecognized name `"Foo"` and the
single-observation sample `[3]`. -/
theorem engineering_error_funnel_witness :
    ("Foo" ∉ pppNames) ∧
    pppInit (some [1, 2]) "Foo" =
      Except.error "You should provide some data." ∧
    liebleinInit (some [(3 : ℚ)]) =
      Except.error "You should provide some data." :=
  ⟨by decide,
   (engineering_error_funnel [1, 2] "Foo" 3 (by decide)).1,
   (engineering_error_funnel [1, 2] "Foo" 3 (by decide)).2.1⟩
